import Mathlib

/-!
# Credify — verification of spec claims against the source

Shallow embedding of the parts of the Credify repository that the claims
C1–C10 are about: video-ID extraction and validation, the credit-claim
insert loops, daily time-series derivation, the user-metrics recompute and
its freshness guard, the scheduled ingestion job, redirect-URL
normalization, engagement-rate arithmetic, the demo-data seeder, and the
token-expiry check.  Each definition is translated from the corresponding
Python source file; theorems at the end settle the claims.
-/

/-! ## Regex machinery for `re.search` with literal-alternative patterns

Both `extract_video_id` regexes used by the credit-claim flows are of the
shape `(?:alt1|alt2|alt3)([a-zA-Z0-9_-]{11})`: a choice of fixed-length
prefixes followed by a capture of exactly 11 identifier characters.
`re.search` scans left to right and, at each position, tries the
alternatives in order; the capture group `([a-zA-Z0-9_-]{11})` then has to
match exactly 11 characters of the class right after the prefix.  We embed
the alternatives as token lists where a token is a literal character or the
regex wildcard `.` (needed because one source pattern contains a wildcard).
-/

inductive RTok where
  | lit : Char → RTok
  | any : RTok
deriving DecidableEq, Repr

/-- Literal tokens for each character of `s`. -/
def lits (s : String) : List RTok := s.toList.map RTok.lit

/-- Match a token list as a prefix of the input; return the remainder. -/
def matchToks : List RTok → List Char → Option (List Char)
  | [], s => some s
  | _ :: _, [] => none
  | RTok.lit l :: ts, c :: cs => if c = l then matchToks ts cs else none
  | RTok.any :: ts, _ :: cs => matchToks ts cs

/-- The character class `[a-zA-Z0-9_-]` of the capture groups. -/
def idChar (c : Char) : Bool := c.isAlpha || c.isDigit || c = '_' || c = '-'

/-- Take exactly `n` characters of the class `[a-zA-Z0-9_-]`. -/
def takeId : Nat → List Char → Option (List Char)
  | 0, _ => some []
  | _ + 1, [] => none
  | n + 1, c :: cs =>
      if idChar c then (takeId n cs).map (c :: ·) else none

/-- At a fixed start position, try each alternative in order; on a prefix
match the capture group must then match 11 class characters (on failure the
regex engine backtracks to the next alternative at the same position). -/
def tryAltsAt : List (List RTok) → List Char → Option (List Char)
  | [], _ => none
  | a :: rest, s =>
      match matchToks a s with
      | some rem =>
          match takeId 11 rem with
          | some g => some g
          | none => tryAltsAt rest s
      | none => tryAltsAt rest s

/-- `re.search` for `(?:alt1|...|altk)([a-zA-Z0-9_-]{11})` followed by
`.group(1)`: leftmost position wins. -/
def reSearchGroup (alts : List (List RTok)) : List Char → Option String
  | [] => none
  | c :: cs =>
      match tryAltsAt alts (c :: cs) with
      | some g => some (String.mk g)
      | none => reSearchGroup alts cs

namespace CredifyApp

/-- `extract_video_id` in `credify_app.py`.  Its pattern is the raw Python
string `r"(?:v=|youtu\\.be/|embed/)([a-zA-Z0-9_-]{11})"`; in a raw string
`\\` stays two characters, so the regex engine sees an escaped backslash
followed by an unescaped `.`: the second alternative is the literal text
`youtu`, a literal backslash, any single character, then `be/`. -/
def extractVideoIdAlts : List (List RTok) :=
  [lits "v=",
   lits "youtu" ++ [RTok.lit '\\', RTok.any] ++ lits "be/",
   lits "embed/"]

def extractVideoId (url : String) : Option String :=
  reSearchGroup extractVideoIdAlts url.toList

end CredifyApp

namespace ClaimRole

/-- `extract_video_id` in `claim_role.py`.  Its pattern is
`r"(?:v=|youtu\.be/|embed/)([a-zA-Z0-9_-]{11})"`; here `\.` is an escaped
dot, i.e. the literal character `.`. -/
def extractVideoIdAlts : List (List RTok) :=
  [lits "v=", lits "youtu.be/", lits "embed/"]

def extractVideoId (url : String) : Option String :=
  reSearchGroup extractVideoIdAlts url.toList

end ClaimRole

/-- The outcome of the URL-parsing step of a claim submission. -/
inductive ClaimSubmitOutcome where
  | abortedInvalidUrl
  | proceeds (videoId : String)
deriving DecidableEq, Repr

/-- The front of both claim flows (`render_add_credit_form` in
`credify_app.py` and the submit handler in `claim_role.py`):
`video_id = extract_video_id(url)`; `if not video_id:` show an error and
`st.stop()` — so neither the video platform nor the database is reached;
otherwise the flow proceeds with the extracted id.  Python's `not`
also treats an empty string as falsy. -/
def claimFlowParse (extract : String → Option String) (url : String) :
    ClaimSubmitOutcome :=
  match extract url with
  | none => ClaimSubmitOutcome.abortedInvalidUrl
  | some v =>
      if v = "" then ClaimSubmitOutcome.abortedInvalidUrl
      else ClaimSubmitOutcome.proceeds v

/-! ## Video-ID validation in `fetch_youtube_data` (`credify_app.py`)

The per-character alphanumericity test behind Python's `str.isalnum` is
standard library (the full Unicode category tables), not repository code,
so — like `datetime.fromisoformat` for C10 — it is modelled as a parameter
`isalnum : Char → Bool`; instantiating it with Python's true Unicode test
gives the real program.  `pyIsAlnumChar` below is an exact transcription
of that test for code points under U+0100, enough to instantiate the
parameter faithfully on Latin-1 inputs. -/

/-- Python's per-character `isalnum` for code points below U+0100, an exact
transcription of the Unicode tables on that range: the ASCII letters and
digits, the Latin-1 letters U+00C0–U+00FF except `×` (U+00D7) and `÷`
(U+00F7), and the alphanumeric signs `ª² ³µ¹º¼½¾`.  On characters above
U+00FF it is not Python's test (which accepts further letters and digits);
it is only ever applied to Latin-1 inputs, where it agrees with Python. -/
def pyIsAlnumChar (c : Char) : Bool :=
  c.isAlpha || c.isDigit ||
  (let n := c.toNat
   (0xC0 ≤ n && n ≤ 0xFF && n ≠ 0xD7 && n ≠ 0xF7) ||
   n = 0xAA || n = 0xB2 || n = 0xB3 || n = 0xB5 || n = 0xB9 || n = 0xBA ||
   n = 0xBC || n = 0xBD || n = 0xBE)

/-- Python's `str.isalnum` on a string, given the standard library's
per-character test: nonempty and every character alphanumeric. -/
def pyStrIsAlnum (isalnum : Char → Bool) (s : List Char) : Bool :=
  !s.isEmpty && s.all isalnum

namespace CredifyApp

/-- First step of `fetch_youtube_data` in `credify_app.py`: either the
function returns `None` before any network call, or an outbound request
for the given id is issued. -/
inductive FetchStep where
  | shortCircuit
  | request (videoId : String)
deriving DecidableEq, Repr

/-- The validation prefix of `fetch_youtube_data`:
`if not video_id or len(video_id) != 11: return None`, then
`if not video_id.replace("-", "").replace("_", "").isalnum(): return None`,
then `requests.get(...)` is reached.  `isalnum` is the standard library's
per-character test (see above). -/
def fetchYoutubeDataStep (isalnum : Char → Bool) (videoId : String) :
    FetchStep :=
  let s := videoId.toList
  if s.isEmpty || s.length ≠ 11 then FetchStep.shortCircuit
  else if !pyStrIsAlnum isalnum (s.filter (fun c => c ≠ '-' && c ≠ '_')) then
    FetchStep.shortCircuit
  else FetchStep.request videoId

end CredifyApp

/-! ## Credit rows and the two claim-submission insert loops (C2) -/

/-- One row of the `user_projects` table: a claimed credit. -/
structure Credit where
  u_id : String
  p_id : String
  u_role : String
deriving DecidableEq, Repr

/-- The predicate of the existence query
`.eq("u_id", u).eq("p_id", p).eq("u_role", r)`. -/
def creditMatches (u p r : String) (c : Credit) : Bool :=
  c.u_id == u && c.p_id == p && c.u_role == r

/-- Number of Credit rows for a given (user, project, role). -/
def creditCount (table : List Credit) (u p r : String) : Nat :=
  (table.filter (creditMatches u p r)).length

namespace CredifyApp

/-- One iteration of the role loop in `render_add_credit_form`
(`credify_app.py`): query for an existing (u_id, p_id, u_role) row and
insert only if none exists. -/
def claimStep (u p : String) (t : List Credit) (role : String) : List Credit :=
  if (t.filter (creditMatches u p role)).isEmpty then t ++ [⟨u, p, role⟩]
  else t

/-- The role loop of the inline Profile-page claim form: for each selected
role, check-then-insert against the current table state. -/
def insertRoles (t : List Credit) (u p : String) (roles : List String) :
    List Credit :=
  roles.foldl (claimStep u p) t

end CredifyApp

namespace ClaimRole

/-- The role loop of the standalone claim tool (`claim_role.py`): each
selected role is inserted unconditionally, with no existence check. -/
def insertRoles (t : List Credit) (u p : String) (roles : List String) :
    List Credit :=
  roles.foldl (fun t' role => t' ++ [⟨u, p, role⟩]) t

end ClaimRole

/-! ## Daily time-series derivation (`fetch_user_daily_timeseries`, C3)

The pandas pipeline, per project and per metric column: sort snapshots by
(date, fetched_at), keep the last snapshot of each day
(`groupby(["p_id", "date"]).tail(1)`), take day-over-day differences with
the first difference filled with zero and negatives clipped to zero
(`diff().fillna(0).clip(lower=0)`), and drop days before the requested
start date (the extra day fetched before the window is baseline only).
Days are numbered by `ℕ`, metric values are integers. -/

/-- Keep the last row of each run of equal dates (the input is already
sorted by date, then fetch time). -/
def lastPerDay : List (ℕ × ℤ) → List (ℕ × ℤ)
  | [] => []
  | [x] => [x]
  | x :: y :: rest =>
      if x.1 = y.1 then lastPerDay (y :: rest) else x :: lastPerDay (y :: rest)

/-- Tail of `diff().clip(lower=0)` given the previous day's value. -/
def clippedDiffsFrom (prev : ℤ) : List (ℕ × ℤ) → List (ℕ × ℤ)
  | [] => []
  | (d, v) :: rest => (d, max (v - prev) 0) :: clippedDiffsFrom v rest

/-- `diff().fillna(0).clip(lower=0)`: the first row's difference is `NaN`
and is filled with `0`; every later row gets the clipped difference from
the previous row. -/
def clippedDiffs : List (ℕ × ℤ) → List (ℕ × ℤ)
  | [] => []
  | (d, _v) :: rest => (d, 0) :: clippedDiffsFrom _v rest

/-- The derived daily series of one project for one metric column:
last-per-day snapshots, clipped day-over-day differences, then the filter
`date >= start_date` that removes the baseline day. -/
def dailySeriesForProject (snaps : List (ℕ × ℤ)) (startDate : ℕ) :
    List (ℕ × ℤ) :=
  (clippedDiffs (lastPerDay snaps)).filter (fun p => startDate ≤ p.1)

/-- Aggregation across a user's projects: the chart value of a day is the
sum of that day's increments over all project series
(`groupby("date").agg(sum)`). -/
def aggregateDay (series : List (List (ℕ × ℤ))) (day : ℕ) : ℤ :=
  (series.map fun s => ((s.filter fun p => p.1 = day).map Prod.snd).sum).sum

/-! ## `update_user_metrics` and its freshness guard (`credify_app.py`, C5, C8)

Timestamps (`fetched_at`, `updated_at`) are ISO strings compared by `>=` in
the source; the comparison respects time order, so they are modelled as
natural numbers. -/

namespace CredifyApp

/-- One row of the `youtube_latest_metrics` view: the most recent snapshot
of one project.  `fetched_at` may be missing (`.get("fetched_at")`). -/
structure MetricRow where
  p_id : String
  view_count : Nat
  like_count : Nat
  comment_count : Nat
  share_count : Nat
  fetched_at : Option Nat
deriving DecidableEq, Repr

/-- The `user_metrics` aggregate row written by `update_user_metrics`. -/
structure UserMetricsRow where
  total_view_count : Nat
  total_like_count : Nat
  total_comment_count : Nat
  total_share_count : Nat
  avg_engagement_rate : ℚ
  updated_at : Nat
deriving DecidableEq, Repr

/-- The database state `update_user_metrics` reads and writes. -/
structure Db where
  user_projects : List (String × String)
  latest_metrics : List MetricRow
  user_metrics : List (String × UserMetricsRow)
deriving DecidableEq, Repr

/-- `user_metrics` upsert keyed by `u_id`: replace the row(s) with that key
or append a new one. -/
def upsertUserMetrics (db : Db) (u : String) (row : UserMetricsRow) : Db :=
  { db with
    user_metrics :=
      if (db.user_metrics.filter fun kv => kv.1 == u).isEmpty then
        db.user_metrics ++ [(u, row)]
      else
        db.user_metrics.map fun kv => if kv.1 == u then (u, row) else kv }

/-- The all-zero aggregate written when the user has no projects or no
metrics, with `updated_at = datetime.utcnow()`. -/
def zeroMetricsRow (now : Nat) : UserMetricsRow :=
  ⟨0, 0, 0, 0, 0, now⟩

/-- The `p_id`s of the user's credits
(`user_projects.select("p_id").eq("u_id", u)`). -/
def projectIdsFor (db : Db) (u : String) : List String :=
  (db.user_projects.filter fun up => up.1 == u).map Prod.snd

/-- The user's latest metrics
(`youtube_latest_metrics ... .in_("p_id", project_ids)`). -/
def latestMetricsFor (db : Db) (u : String) : List MetricRow :=
  db.latest_metrics.filter fun m => (projectIdsFor db u).contains m.p_id

/-- `user_metrics.select("updated_at").eq("u_id", u)`, first row. -/
def lookupUserMetrics (db : Db) (u : String) : Option UserMetricsRow :=
  ((db.user_metrics.filter fun kv => kv.1 == u).map Prod.snd).head?

/-- Per-project engagement percentages: rows with `views > 0` contribute
`(likes + comments + shares) / views * 100`; zero-view rows are skipped,
so no division by zero is ever evaluated. -/
def engagementRates (metrics : List MetricRow) : List ℚ :=
  metrics.filterMap fun m =>
    if 0 < m.view_count then
      some (((m.like_count : ℚ) + m.comment_count + m.share_count)
              / m.view_count * 100)
    else none

/-- `avg_engagement = sum(engagement_rates) / len(engagement_rates) if
engagement_rates else 0`. -/
def avgEngagementRate (metrics : List MetricRow) : ℚ :=
  let rates := engagementRates metrics
  if rates.isEmpty then 0 else rates.sum / rates.length

/-- The freshness guard of `update_user_metrics`: with at least one
`fetched_at` among the user's latest metrics (`latest_ts = max(...)`) and a
stored `user_metrics.updated_at` that already dominates it, the recompute
is skipped. -/
def freshnessGuard (db : Db) (u : String) : Bool :=
  match (latestMetricsFor db u).filterMap (·.fetched_at),
      lookupUserMetrics db u with
  | c :: cs, some um => decide (cs.foldl max c ≤ um.updated_at)
  | _, _ => false

/-- The aggregate row `update_user_metrics` computes from the user's latest
metrics: totals of each counter, the average engagement percentage, and
`updated_at = datetime.utcnow()`. -/
def aggregateRow (db : Db) (u : String) (now : Nat) : UserMetricsRow :=
  let latestMetrics := latestMetricsFor db u
  { total_view_count := (latestMetrics.map (·.view_count)).sum
    total_like_count := (latestMetrics.map (·.like_count)).sum
    total_comment_count := (latestMetrics.map (·.comment_count)).sum
    total_share_count := (latestMetrics.map (·.share_count)).sum
    avg_engagement_rate := avgEngagementRate latestMetrics
    updated_at := now }

/-- `update_user_metrics(u_id)` as a state transition; the boolean records
whether the `user_metrics` upsert was executed.  Steps, in source order:
no projects → write zeros; no latest metrics → write zeros; freshness
guard trips → return without writing; otherwise aggregate and upsert with
`updated_at = now`. -/
def updateUserMetrics (db : Db) (u : String) (now : Nat) : Db × Bool :=
  if (projectIdsFor db u).isEmpty then
    (upsertUserMetrics db u (zeroMetricsRow now), true)
  else if (latestMetricsFor db u).isEmpty then
    (upsertUserMetrics db u (zeroMetricsRow now), true)
  else if freshnessGuard db u then (db, false)
  else (upsertUserMetrics db u (aggregateRow db u now), true)

end CredifyApp

namespace UpdateUserMetricsScript

/-- The standalone `update_user_metrics.py` script, after the user lookup:
it aggregates the `latest_metrics` rows and **always** upserts — there is
no freshness guard in this variant.  Only the write behaviour matters for
the claims, so the transition reuses the same database model; the boolean
again records whether the upsert was executed. -/
def updateUserMetrics (db : CredifyApp.Db) (u : String) (now : Nat) :
    CredifyApp.Db × Bool :=
  let projectIds := CredifyApp.projectIdsFor db u
  if projectIds.isEmpty then (db, false)
  else
    let latestMetrics := CredifyApp.latestMetricsFor db u
    if latestMetrics.isEmpty then (db, false)
    else
      let row : CredifyApp.UserMetricsRow :=
        { total_view_count := (latestMetrics.map (·.view_count)).sum
          total_like_count := (latestMetrics.map (·.like_count)).sum
          total_comment_count := (latestMetrics.map (·.comment_count)).sum
          total_share_count := (latestMetrics.map (·.share_count)).sum
          avg_engagement_rate := 0
          updated_at := now }
      (CredifyApp.upsertUserMetrics db u row, true)

end UpdateUserMetricsScript

/-! ## The scheduled ingestion job (`aws/get_youtube_metrics`, C6) -/

namespace Lambda

/-- The `statistics` object of one item of the video platform's reply. -/
structure YtStats where
  viewCount : Nat
  likeCount : Nat
  commentCount : Nat
deriving DecidableEq, Repr

/-- The video platform's HTTP reply for one video id:
`yt_response.raise_for_status()` raises exactly when `ok` is false, and
`data.get("items")` is the item list. -/
structure YtResponse where
  ok : Bool
  items : List YtStats
deriving DecidableEq, Repr

/-- The hosted backend's behaviour for one video: the same-day dedupe
lookup (`sel.ok` and whether `sel.json()` is nonempty) and the status of
the insert response, which is only printed, never inspected. -/
structure BackendBehavior where
  dedupeOk : Bool
  dedupeRows : Bool
  insertOk : Bool
deriving DecidableEq, Repr

/-- The summary value `{"success": True, "count": len(video_ids)}`. -/
structure Summary where
  success : Bool
  count : Nat
deriving DecidableEq, Repr

/-- `[v.strip() for v in VIDEO_IDS_ENV.split(",") if v.strip()] or
["3zKwIqxLTd4"]`: the hard-coded fallback id when nothing is
configured. -/
def videoIdsFromEnv (parsed : List String) : List String :=
  if parsed.isEmpty then ["3zKwIqxLTd4"] else parsed

/-- The per-video loop of `lambda_handler`.  A non-ok video-platform reply
makes `raise_for_status` raise, aborting the whole invocation (modelled as
`Except.error` carrying the offending id).  An empty item list is logged
and the video skipped; a positive dedupe lookup skips the insert; the
insert response is logged whatever its status. -/
def processVideos (yt : String → YtResponse) (backend : String → BackendBehavior) :
    List String → Except String Unit
  | [] => Except.ok ()
  | vid :: rest =>
      let r := yt vid
      if !r.ok then Except.error vid
      else if r.items.isEmpty then processVideos yt backend rest
      else
        let b := backend vid
        if b.dedupeOk && b.dedupeRows then processVideos yt backend rest
        else processVideos yt backend rest

/-- `lambda_handler`: run the loop over the configured ids and return the
success summary whose count is the number of configured videos. -/
def lambdaHandler (yt : String → YtResponse) (backend : String → BackendBehavior)
    (parsedEnvIds : List String) : Except String Summary :=
  let videoIds := videoIdsFromEnv parsedEnvIds
  match processVideos yt backend videoIds with
  | Except.error e => Except.error e
  | Except.ok _ => Except.ok ⟨true, videoIds.length⟩

end Lambda

/-! ## Redirect-URL normalization (`auth.py`, C7) -/

namespace Auth

/-- The fields of `urlparse(value if "://" in value else
f"https://{value}")` that `_normalize_base_url` reads.  Python's
`.hostname` is `None` when the URL has no host and is already
lower-cased. -/
structure ParsedUrl where
  hostname : Option String
  port : Option Nat
  scheme : String
deriving DecidableEq, Repr

def CANONICAL_PRODUCTION_URL : String := "https://credifyapp.streamlit.app"

def ALLOWED_PRODUCTION_HOSTS : List String := ["credifyapp.streamlit.app"]

def LOCALHOST_HOSTS : List String := ["localhost", "127.0.0.1"]

/-- Python's `str.endswith`. -/
def pyEndsWith (s suffix : String) : Bool := suffix.toList.isSuffixOf s.toList

/-- `_normalize_base_url`.  `none` as input stands for a candidate that is
`None` or blank after stripping (`if not candidate` / `if not value`).
For a loopback host the scheme is forced to `http`
(`scheme = parsed.scheme or "http"; if scheme != "http": scheme = "http"`)
and the candidate's port is kept. -/
def normalizeBaseUrl (candidate : Option ParsedUrl) : Option String :=
  match candidate with
  | none => none
  | some p =>
      match p.hostname with
      | none => none
      | some host =>
          if LOCALHOST_HOSTS.contains host then
            some ("http://localhost" ++
              match p.port with
              | some pt => ":" ++ toString pt
              | none => "")
          else if ALLOWED_PRODUCTION_HOSTS.contains host then
            some CANONICAL_PRODUCTION_URL
          else if pyEndsWith host "share.streamlit.io" then
            some CANONICAL_PRODUCTION_URL
          else none

/-- `_get_production_base_url`: the first candidate (secrets, then
environment) that normalizes wins; with no acceptable candidate the
canonical production URL is the fallback. -/
def getProductionBaseUrl (candidates : List (Option ParsedUrl)) : String :=
  match candidates.filterMap normalizeBaseUrl with
  | [] => CANONICAL_PRODUCTION_URL
  | u :: _ => u

end Auth

/-! ## Engagement figure of the one-off uploader (`add_to_supabase.py`, C8) -/

namespace AddToSupabase

/-- Python's `round` to an integer: round half to even. -/
def roundHalfEvenInt (q : ℚ) : ℤ :=
  let f := ⌊q⌋
  let r := q - f
  if r < 1 / 2 then f
  else if 1 / 2 < r then f + 1
  else if Even f then f else f + 1

/-- Python's `round(x, 4)` (modelled on exact rationals). -/
def roundHalfEven4 (q : ℚ) : ℚ := (roundHalfEvenInt (q * 10000) : ℚ) / 10000

/-- `engagement = round(((likes + comments) / views), 4) if views else
None`: zero views yield an absent value, so the division is never
evaluated there. -/
def engagementRate (views likes comments : Nat) : Option ℚ :=
  if views ≠ 0 then
    some (roundHalfEven4 (((likes : ℚ) + comments) / views))
  else none

end AddToSupabase

/-! ## Demo-data seeder (`scripts/seed_demo_data.py`, C9)

The random draws of `seed_metrics` (`rng.uniform(a, b)` and
`rng.random()`) are modelled as given rationals; `WellDrawn` states the
ranges those generator calls guarantee.  `int()` is Python truncation
toward zero. -/

namespace Seeder

/-- The per-day random draws consumed by the loop body of
`seed_metrics`. -/
structure DayDraws where
  dailyVariation : ℚ
  spikeRoll : ℚ
  spikeMult : ℚ
  dipRoll : ℚ
  dipMult : ℚ
  likeRate : ℚ
  commentRate : ℚ
deriving DecidableEq, Repr

/-- The ranges guaranteed by the `rng.uniform` / `rng.random` calls:
`uniform(0.7, 1.5)`, `random() ∈ [0, 1)`, `uniform(3.0, 8.0)`,
`uniform(0.4, 0.8)`, `uniform(0.02, 0.05)`, `uniform(0.005, 0.02)`. -/
def WellDrawn (w : DayDraws) : Prop :=
  7 / 10 ≤ w.dailyVariation ∧ w.dailyVariation ≤ 3 / 2 ∧
  0 ≤ w.spikeRoll ∧ w.spikeRoll < 1 ∧
  3 ≤ w.spikeMult ∧ w.spikeMult ≤ 8 ∧
  0 ≤ w.dipRoll ∧ w.dipRoll < 1 ∧
  2 / 5 ≤ w.dipMult ∧ w.dipMult ≤ 4 / 5 ∧
  1 / 50 ≤ w.likeRate ∧ w.likeRate ≤ 1 / 20 ∧
  1 / 200 ≤ w.commentRate ∧ w.commentRate ≤ 1 / 50

instance (w : DayDraws) : Decidable (WellDrawn w) := by
  unfold WellDrawn; infer_instance

/-- Python `int()`: truncation toward zero. -/
def pyInt (q : ℚ) : ℤ := if 0 ≤ q then ⌊q⌋ else -⌊-q⌋

/-- `[1200, 800, 1500][pid_idx % 3]`. -/
def baseDailyViews (pidIdx : Nat) : Nat :=
  [1200, 800, 1500].getD (pidIdx % 3) 0

/-- `inc_v`: base views times weekend, trend, variation, spike and dip
factors, truncated to an int.  `0.7 = 7/10`, `0.00033 = 33/100000`,
`0.05 = 1/20`, `0.10 = 1/10`. -/
def incViews (base : Nat) (d dow : Nat) (w : DayDraws) : ℤ :=
  let weekendMultiplier : ℚ := if 5 ≤ dow then 7 / 10 else 1
  let trendFactor : ℚ := 1 + d * (33 / 100000)
  let spikeMultiplier : ℚ := if w.spikeRoll < 1 / 20 then w.spikeMult else 1
  let dipMultiplier : ℚ :=
    if w.dipRoll < 1 / 10 ∧ spikeMultiplier = 1 then w.dipMult else 1
  pyInt ((base : ℚ) * weekendMultiplier * trendFactor * w.dailyVariation *
    spikeMultiplier * dipMultiplier)

/-- `inc_l = max(0, int(inc_v * like_rate))`. -/
def incLikes (incV : ℤ) (w : DayDraws) : ℤ := max 0 (pyInt (incV * w.likeRate))

/-- `inc_c = max(0, int(inc_v * comment_rate))`. -/
def incComments (incV : ℤ) (w : DayDraws) : ℤ :=
  max 0 (pyInt (incV * w.commentRate))

/-- One generated snapshot row of one project (day index and the three
cumulative counters). -/
structure SeedRow where
  day : Nat
  view_count : ℤ
  like_count : ℤ
  comment_count : ℤ
deriving DecidableEq, Repr

/-- The day loop of `seed_metrics` for one project, carrying the three
cumulative counters (`cum_v`, `cum_l`, `cum_c`).  `startDow` is the
weekday of the window's first day, so day `d` has weekday
`(startDow + d) % 7`. -/
def seedRowsFrom (base startDow : Nat) (draws : Nat → DayDraws)
    (cum : ℤ × ℤ × ℤ) (d : Nat) : Nat → List SeedRow
  | 0 => []
  | remaining + 1 =>
      let w := draws d
      let iv := incViews base d ((startDow + d) % 7) w
      let il := incLikes iv w
      let ic := incComments iv w
      let cum' : ℤ × ℤ × ℤ := (cum.1 + iv, cum.2.1 + il, cum.2.2 + ic)
      ⟨d, cum'.1, cum'.2.1, cum'.2.2⟩ ::
        seedRowsFrom base startDow draws cum' (d + 1) remaining

/-- All snapshot rows the seeder generates for one project: cumulative
counters start at zero. -/
def seedRowsForProject (base startDow : Nat) (draws : Nat → DayDraws)
    (days : Nat) : List SeedRow :=
  seedRowsFrom base startDow draws (0, 0, 0) 0 days

end Seeder

/-! ## Token-expiry check (`utils/instagram_oauth.py`, C10) -/

namespace InstagramOAuth

/-- `is_token_expired`.  `datetime.fromisoformat` is Python standard
library, not repository code: it is modelled as an arbitrary partial parse
function producing a UTC instant in seconds, `none` standing for the
`ValueError` it raises on an unparseable string (the caught
`AttributeError` cannot occur for string input).  The source replaces `Z`
by `+00:00` before parsing, interprets naive results as UTC, and compares
the expiry against `now + 7 days`; every failure path returns `False`
("assume valid") and no exception escapes. -/
def isTokenExpired (fromisoformat : String → Option ℤ) (now : ℤ)
    (expiresAt : Option String) : Bool :=
  match expiresAt with
  | none => false
  | some s =>
      if s = "" then false
      else
        match fromisoformat (s.replace "Z" "+00:00") with
        | none => false
        | some expiry => decide (expiry ≤ now + 7 * 86400)

end InstagramOAuth

/-! ## Helper lemmas -/

lemma creditCount_append_single (t : List Credit) (u p r : String) (c : Credit) :
    creditCount (t ++ [c]) u p r =
      creditCount t u p r + if creditMatches u p r c then 1 else 0 := by
  simp only [creditCount, List.filter_append, List.length_append,
    List.filter_cons, List.filter_nil]
  by_cases h : creditMatches u p r c <;> simp [h]

lemma claimStep_count (t : List Credit) (u p role r : String) :
    creditCount (CredifyApp.claimStep u p t role) u p r =
      if role = r ∧ creditCount t u p role = 0 then creditCount t u p r + 1
      else creditCount t u p r := by
  unfold CredifyApp.claimStep
  by_cases h0 : (t.filter (creditMatches u p role)).isEmpty
  · rw [if_pos h0, creditCount_append_single]
    have hz : creditCount t u p role = 0 := by
      simpa [creditCount, List.isEmpty_iff, List.length_eq_zero] using h0
    by_cases hr : role = r
    · subst hr; simp [creditMatches, hz]
    · simp [creditMatches, hr, hz]
  · rw [if_neg h0]
    have hz : creditCount t u p role ≠ 0 := by
      simpa [creditCount, List.isEmpty_iff, List.length_eq_zero] using h0
    simp [hz]

lemma insertRoles_count (u p r : String) (roles : List String)
    (t : List Credit) :
    creditCount (CredifyApp.insertRoles t u p roles) u p r =
      if creditCount t u p r = 0 ∧ r ∈ roles then 1
      else creditCount t u p r := by
  induction roles generalizing t with
  | nil => simp [CredifyApp.insertRoles]
  | cons a rs ih =>
    have hfold : CredifyApp.insertRoles t u p (a :: rs) =
        CredifyApp.insertRoles (CredifyApp.claimStep u p t a) u p rs := rfl
    rw [hfold, ih, claimStep_count]
    by_cases har : a = r
    · subst har
      by_cases h0 : creditCount t u p a = 0
      · simp [h0]
      · simp [h0, List.mem_cons]
    · have har' : ¬r = a := fun h => har h.symm
      by_cases h0 : creditCount t u p r = 0 <;>
        simp [har, har', h0, List.mem_cons]

lemma clippedDiffsFrom_nonneg (prev : ℤ) (l : List (ℕ × ℤ)) :
    ∀ p ∈ clippedDiffsFrom prev l, 0 ≤ p.2 := by
  induction l generalizing prev with
  | nil => simp [clippedDiffsFrom]
  | cons x rest ih =>
    obtain ⟨d, v⟩ := x
    intro p hp
    simp only [clippedDiffsFrom, List.mem_cons] at hp
    rcases hp with h | h
    · subst h; exact le_max_right _ _
    · exact ih v p h

lemma clippedDiffs_nonneg (l : List (ℕ × ℤ)) :
    ∀ p ∈ clippedDiffs l, 0 ≤ p.2 := by
  cases l with
  | nil => simp [clippedDiffs]
  | cons x rest =>
    obtain ⟨d, v⟩ := x
    intro p hp
    simp only [clippedDiffs, List.mem_cons] at hp
    rcases hp with h | h
    · subst h; exact le_refl _
    · exact clippedDiffsFrom_nonneg v rest p h

/-! ## Claim theorems -/

/-- C1 (code bug): the video-ID extraction used by the credit-claim flow
must yield `dQw4w9WgXcQ` for both the canonical watch URL and the
`youtu.be` short link, and a URL matching neither pattern must abort the
flow before the video platform is called.  The standalone tool's extractor
(`claim_role.py`) behaves that way, but the inline Profile-page flow's
extractor (`credify_app.py`) returns no identifier for the short-link form
— its raw-string pattern `youtu\\.be/` demands a literal backslash — so
that flow aborts with "Invalid YouTube URL" on a valid short link. -/
theorem c1_shortlink_extraction_bug :
    CredifyApp.extractVideoId "https://www.youtube.com/watch?v=dQw4w9WgXcQ" =
        some "dQw4w9WgXcQ" ∧
      ClaimRole.extractVideoId "https://www.youtube.com/watch?v=dQw4w9WgXcQ" =
        some "dQw4w9WgXcQ" ∧
      ClaimRole.extractVideoId "https://youtu.be/dQw4w9WgXcQ" =
        some "dQw4w9WgXcQ" ∧
      CredifyApp.extractVideoId "https://youtu.be/dQw4w9WgXcQ" = none ∧
      claimFlowParse CredifyApp.extractVideoId
          "https://youtu.be/dQw4w9WgXcQ" =
        ClaimSubmitOutcome.abortedInvalidUrl ∧
      CredifyApp.extractVideoId "https://example.com/page" = none ∧
      claimFlowParse CredifyApp.extractVideoId "https://example.com/page" =
        ClaimSubmitOutcome.abortedInvalidUrl ∧
      claimFlowParse ClaimRole.extractVideoId "https://example.com/page" =
        ClaimSubmitOutcome.abortedInvalidUrl := by
  refine ⟨by decide, by decide, by decide, by decide, by decide, by decide,
    by decide, by decide⟩

/-- C2 counterexample: submitting the same (user, project, role) twice
through the standalone single-page claim tool (`claim_role.py`) leaves two
Credit rows, not one — its insert loop has no existence check. -/
theorem c2_standalone_double_submit_counterexample :
    creditCount
      (ClaimRole.insertRoles
        (ClaimRole.insertRoles [] "u1" "dQw4w9WgXcQ" ["Editor"])
        "u1" "dQw4w9WgXcQ" ["Editor"])
      "u1" "dQw4w9WgXcQ" "Editor" = 2 := by decide

/-- C2 (amended): in the inline Profile-page claim form, a Credit row is
inserted only when no (user, project, role) row exists, so submitting the
same combination twice leaves exactly one row; the standalone single-page
tool inserts unconditionally and can duplicate. -/
theorem c2_inline_claim_idempotent (t : List Credit) (u p r : String)
    (roles : List String) (hr : r ∈ roles)
    (h0 : creditCount t u p r = 0) :
    creditCount
      (CredifyApp.insertRoles (CredifyApp.insertRoles t u p roles) u p roles)
      u p r = 1 := by
  have h1 := insertRoles_count u p r roles t
  rw [if_pos ⟨h0, hr⟩] at h1
  have h2 :=
    insertRoles_count u p r roles (CredifyApp.insertRoles t u p roles)
  rw [h1] at h2
  simpa using h2

theorem c2_inline_claim_idempotent_witness :
    "Editor" ∈ ["Editor"] ∧
      creditCount [] "u1" "dQw4w9WgXcQ" "Editor" = 0 ∧
      creditCount
        (CredifyApp.insertRoles
          (CredifyApp.insertRoles [] "u1" "dQw4w9WgXcQ" ["Editor"])
          "u1" "dQw4w9WgXcQ" ["Editor"])
        "u1" "dQw4w9WgXcQ" "Editor" = 1 :=
  ⟨by decide, by decide,
    c2_inline_claim_idempotent [] "u1" "dQw4w9WgXcQ" "Editor" ["Editor"]
      (by decide) (by decide)⟩

/-- C3: the derived daily series assigns each day the positive
day-over-day difference of that day's last snapshot against the previous
day's last snapshot, clipped at zero, so it is never negative; for
cumulative views `[day1: 100, day2: 140, day3: 130]` with the window
starting at day 2 it is `[day2: 40, day3: 0]`, the baseline day 1
excluded. -/
theorem c3_daily_series_nonneg (snaps : List (ℕ × ℤ)) (startDate : ℕ) :
    (∀ p ∈ dailySeriesForProject snaps startDate, 0 ≤ p.2) ∧
      dailySeriesForProject [(1, 100), (2, 140), (3, 130)] 2 =
        [(2, 40), (3, 0)] := by
  constructor
  · intro p hp
    exact clippedDiffs_nonneg _ p (List.mem_filter.mp hp).1
  · decide

theorem c3_daily_series_nonneg_witness :
    (2, (40 : ℤ)) ∈ dailySeriesForProject [(1, 100), (2, 140), (3, 130)] 2 ∧
      0 ≤ ((2, (40 : ℤ)) : ℕ × ℤ).2 :=
  ⟨by decide,
    (c3_daily_series_nonneg [(1, 100), (2, 140), (3, 130)] 2).1 _ (by decide)⟩

/-- C10: for every `expires_at` string the ISO parse rejects, the
token-expiry check returns `false` — the token is treated as valid — and,
the `ValueError` being caught, no exception escapes. -/
theorem c10_unparseable_expiry_valid (fromisoformat : String → Option ℤ)
    (now : ℤ) (s : String)
    (h : fromisoformat (s.replace "Z" "+00:00") = none) :
    InstagramOAuth.isTokenExpired fromisoformat now (some s) = false := by
  unfold InstagramOAuth.isTokenExpired
  by_cases hs : s = ""
  · simp [hs]
  · simp [hs, h]

theorem c10_unparseable_expiry_valid_witness :
    InstagramOAuth.isTokenExpired (fun _ => none) 0
      (some "not-a-timestamp") = false :=
  c10_unparseable_expiry_valid (fun _ => none) 0 "not-a-timestamp" rfl

lemma pyStrIsAlnum_eq_true (isalnum : Char → Bool) (l : List Char) :
    pyStrIsAlnum isalnum l = true ↔ l ≠ [] ∧ ∀ c ∈ l, isalnum c = true := by
  simp [pyStrIsAlnum, List.isEmpty_iff, List.all_eq_true]

/-- C4 counterexample: `"ééééééééééé"` (eleven copies of `é`, all Latin-1,
so `pyIsAlnumChar` is Python's `isalnum` on every character involved)
contains a character outside `[A-Za-z0-9_-]` (that class is `idChar`), yet
`fetch_youtube_data` does not short-circuit on it: Python's Unicode-aware
`isalnum` accepts `é`, so an outbound request is issued. -/
theorem c4_unicode_alnum_counterexample :
    CredifyApp.fetchYoutubeDataStep pyIsAlnumChar "ééééééééééé" =
        CredifyApp.FetchStep.request "ééééééééééé" ∧
      'é' ∈ "ééééééééééé".toList ∧ idChar 'é' = false := by
  refine ⟨by decide, by decide, by decide⟩

/-- C4 (amended): for every per-character alphanumericity test — hence in
particular for Python's true Unicode one — the fetch reaches the
video-platform API exactly for candidates of 11 characters each of which
is alphanumeric under that test, a hyphen, or an underscore, with at least
one character besides hyphen/underscore.  In particular wrong lengths and
non-alphanumeric characters short-circuit with no outbound request, but
the charset is wider than the claimed `[A-Za-z0-9_-]`: non-ASCII letters
such as `é` also pass the client-side validation. -/
theorem c4_validation_amended (isalnum : Char → Bool) (videoId : String) :
    CredifyApp.fetchYoutubeDataStep isalnum videoId =
        CredifyApp.FetchStep.request videoId ↔
      (videoId.toList.length = 11 ∧
        (∀ c ∈ videoId.toList, isalnum c = true ∨ c = '-' ∨ c = '_') ∧
        (∃ c ∈ videoId.toList, ¬(c = '-' ∨ c = '_'))) := by
  simp only [CredifyApp.fetchYoutubeDataStep]
  split_ifs with h1 h2
  · simp only [Bool.or_eq_true, List.isEmpty_iff, decide_eq_true_eq] at h1
    constructor
    · intro h; exact h.elim
    · rintro ⟨hlen, -, -⟩
      exfalso
      rcases h1 with h | h
      · rw [h] at hlen; simp at hlen
      · exact h hlen
  · rw [Bool.not_eq_true'] at h2
    constructor
    · intro h; exact h.elim
    · rintro ⟨-, hall, c, hc, hcd⟩
      exfalso
      have hq : (¬c = '-' ∧ ¬c = '_') := not_or.mp hcd
      have : pyStrIsAlnum isalnum
          (videoId.toList.filter fun c => c ≠ '-' && c ≠ '_') = true := by
        rw [pyStrIsAlnum_eq_true]
        constructor
        · intro hnil
          have := List.filter_eq_nil_iff.mp hnil c hc
          simp [hq.1, hq.2] at this
        · intro x hx
          obtain ⟨hxs, hxq⟩ := List.mem_filter.mp hx
          simp only [Bool.and_eq_true, decide_eq_true_eq] at hxq
          rcases hall x hxs with h | h | h
          · exact h
          · exact absurd h hxq.1
          · exact absurd h hxq.2
      rw [this] at h2; cases h2
  · simp only [Bool.or_eq_true, List.isEmpty_iff, decide_eq_true_eq,
      not_or, not_not] at h1
    simp only [Bool.not_eq_true, Bool.not_eq_false'] at h2
    rw [pyStrIsAlnum_eq_true] at h2
    constructor
    · intro _
      refine ⟨h1.2, ?_, ?_⟩
      · intro c hc
        by_cases hd : c = '-' ∨ c = '_'
        · rcases hd with h | h
          · exact Or.inr (Or.inl h)
          · exact Or.inr (Or.inr h)
        · have hq := not_or.mp hd
          have : c ∈ videoId.toList.filter fun c => c ≠ '-' && c ≠ '_' := by
            refine List.mem_filter.mpr ⟨hc, ?_⟩
            simp [hq.1, hq.2]
          exact Or.inl (h2.2 c this)
      · obtain ⟨x, hx⟩ := List.exists_mem_of_ne_nil _ h2.1
        obtain ⟨hxs, hxq⟩ := List.mem_filter.mp hx
        simp only [Bool.and_eq_true, decide_eq_true_eq] at hxq
        exact ⟨x, hxs, not_or.mpr hxq⟩
    · intro _; rfl

lemma processVideos_ok_of_all_ok (yt : String → Lambda.YtResponse)
    (backend : String → Lambda.BackendBehavior) :
    ∀ vids : List String, (∀ v ∈ vids, (yt v).ok = true) →
      Lambda.processVideos yt backend vids = Except.ok () := by
  intro vids
  induction vids with
  | nil => intro _; rfl
  | cons v rest ih =>
    intro h
    have hv : (yt v).ok = true := h v (List.mem_cons_self v rest)
    have hrest := ih fun x hx => h x (List.mem_cons_of_mem v hx)
    simp only [Lambda.processVideos, hv]
    simpa using hrest

/-- C6 counterexample: one configured video whose video-platform reply is
non-OK makes `raise_for_status` raise, so the invocation aborts with an
exception instead of returning the success summary. -/
theorem c6_non_ok_response_counterexample :
    Lambda.lambdaHandler (fun _ => ⟨false, []⟩) (fun _ => ⟨true, false, true⟩)
        ["dQw4w9WgXcQ"] = Except.error "dQw4w9WgXcQ" ∧
      (Except.error "dQw4w9WgXcQ" : Except String Lambda.Summary) ≠
        Except.ok ⟨true, 1⟩ := by
  exact ⟨rfl, by simp⟩

/-- C6 (amended): when every configured video's platform reply is OK, the
job returns the success summary whose count is the number of configured
videos, whatever the per-video outcomes — an empty item list is logged and
skipped, a same-day duplicate skips the insert, and a failed backend
insert is only logged; there is no retry.  A non-OK video-platform reply,
however, raises out of the handler and no summary is returned. -/
theorem c6_success_summary_amended (yt : String → Lambda.YtResponse)
    (backend : String → Lambda.BackendBehavior) (parsed : List String)
    (h : ∀ v ∈ Lambda.videoIdsFromEnv parsed, (yt v).ok = true) :
    Lambda.lambdaHandler yt backend parsed =
      Except.ok ⟨true, (Lambda.videoIdsFromEnv parsed).length⟩ := by
  have hp := processVideos_ok_of_all_ok yt backend _ h
  simp [Lambda.lambdaHandler, hp]

theorem c6_success_summary_amended_witness :
    Lambda.lambdaHandler
      (fun v => if v = "vidWithNoDataA" then ⟨true, []⟩ else ⟨true, [⟨7, 1, 1⟩]⟩)
      (fun _ => ⟨false, false, false⟩)
      ["vidWithNoDataA", "vidWithDataBB"] = Except.ok ⟨true, 2⟩ :=
  c6_success_summary_amended _ _ ["vidWithNoDataA", "vidWithDataBB"]
    (by decide)

lemma foldl_max_le (t : Nat) :
    ∀ (l : List Nat) (acc : Nat), acc ≤ t → (∀ x ∈ l, x ≤ t) →
      l.foldl max acc ≤ t := by
  intro l
  induction l with
  | nil => intro acc h _; simpa using h
  | cons x xs ih =>
    intro acc hacc hall
    simp only [List.foldl_cons]
    exact ih (max acc x) (max_le hacc (hall x (by simp)))
      fun y hy => hall y (by simp [hy])

lemma filter_map_replace (u : String) (row : CredifyApp.UserMetricsRow) :
    ∀ l : List (String × CredifyApp.UserMetricsRow),
      l.filter (fun kv => kv.1 == u) ≠ [] →
      ((((l.map fun kv => if kv.1 == u then (u, row) else kv).filter
        fun kv => kv.1 == u).map Prod.snd).head?) = some row := by
  intro l
  induction l with
  | nil => intro h; simp at h
  | cons kv rest ih =>
    intro h
    by_cases hk : (kv.1 == u) = true
    · have hku : kv.1 = u := by simpa using hk
      have hfkv : ((kv :: rest).map fun kv =>
          if kv.1 == u then (u, row) else kv) =
          (u, row) :: (rest.map fun kv => if kv.1 == u then (u, row) else kv) := by
        simp [hku]
      rw [hfkv, List.filter_cons, if_pos (by simp), List.map_cons,
        List.head?_cons]
    · have hkf : (kv.1 == u) = false := by simpa using hk
      have hfkv : (if kv.1 == u then (u, row) else kv) = kv := by simp [hkf]
      have hrest : rest.filter (fun kv => kv.1 == u) ≠ [] := by
        rw [List.filter_cons] at h
        simpa [hkf] using h
      rw [List.map_cons, hfkv, List.filter_cons, if_neg (by simp [hkf])]
      exact ih hrest

lemma lookupUserMetrics_upsert (db : CredifyApp.Db) (u : String)
    (row : CredifyApp.UserMetricsRow) :
    CredifyApp.lookupUserMetrics (CredifyApp.upsertUserMetrics db u row) u =
      some row := by
  simp only [CredifyApp.lookupUserMetrics, CredifyApp.upsertUserMetrics]
  by_cases h : (db.user_metrics.filter fun kv => kv.1 == u).isEmpty
  · rw [if_pos h, List.filter_append, List.isEmpty_iff.mp h]
    simp
  · rw [if_neg h]
    exact filter_map_replace u row db.user_metrics
      (by simpa [List.isEmpty_iff] using h)

/-- C5 counterexample: invoking the metrics recompute twice in succession
with no new snapshots does not always write exactly once.  For a user with
no credited projects the app's recompute upserts the zero aggregate on
every call (the freshness guard never engages on that path), and the
standalone script variant, which has no freshness guard, also writes on
both of two consecutive calls. -/
theorem c5_double_recompute_counterexample :
    (CredifyApp.updateUserMetrics ⟨[], [], []⟩ "u1" 5).2 = true ∧
      (CredifyApp.updateUserMetrics
        (CredifyApp.updateUserMetrics ⟨[], [], []⟩ "u1" 5).1 "u1" 6).2 =
        true ∧
      (UpdateUserMetricsScript.updateUserMetrics
        ⟨[("u1", "vid")], [⟨"vid", 10, 1, 1, 0, some 3⟩], []⟩ "u1" 5).2 =
        true ∧
      (UpdateUserMetricsScript.updateUserMetrics
        (UpdateUserMetricsScript.updateUserMetrics
          ⟨[("u1", "vid")], [⟨"vid", 10, 1, 1, 0, some 3⟩], []⟩ "u1" 5).1
        "u1" 6).2 = true := by
  refine ⟨by decide, by decide, by decide, by decide⟩

/-- C5 (amended): in the app's recompute, for a user whose latest-metric
rows all carry `fetched_at` timestamps no later than the first call's write
time, the second of two consecutive invocations is a no-op: whether or not
the first call wrote, the freshness guard makes the second call perform no
write.  (For a user with no projects or no metric rows the zero aggregate
is upserted on every call, and the standalone script variant has no
freshness guard at all.) -/
theorem c5_freshness_guard_amended (db : CredifyApp.Db) (u : String)
    (t1 t2 : Nat) (hne : CredifyApp.latestMetricsFor db u ≠ [])
    (hts : ∀ m ∈ CredifyApp.latestMetricsFor db u,
      ∃ ts, m.fetched_at = some ts ∧ ts ≤ t1) :
    (CredifyApp.updateUserMetrics
      (CredifyApp.updateUserMetrics db u t1).1 u t2).2 = false := by
  have hPne : CredifyApp.projectIdsFor db u ≠ [] := by
    intro h
    apply hne
    simp [CredifyApp.latestMetricsFor, h]
  have hP : (CredifyApp.projectIdsFor db u).isEmpty = false := by
    simpa [List.isEmpty_iff] using hPne
  have hL : (CredifyApp.latestMetricsFor db u).isEmpty = false := by
    simpa [List.isEmpty_iff] using hne
  have hCle : ∀ x ∈ (CredifyApp.latestMetricsFor db u).filterMap
      (·.fetched_at), x ≤ t1 := by
    intro x hx
    obtain ⟨m, hm, hf⟩ := List.mem_filterMap.mp hx
    obtain ⟨ts, hts1, hts2⟩ := hts m hm
    rw [hts1] at hf
    injection hf with hh
    exact hh ▸ hts2
  have hCne : (CredifyApp.latestMetricsFor db u).filterMap (·.fetched_at) ≠
      [] := by
    obtain ⟨m, hm⟩ := List.exists_mem_of_ne_nil _ hne
    obtain ⟨ts, hts1, -⟩ := hts m hm
    intro hnil
    have hmem : ts ∈ (CredifyApp.latestMetricsFor db u).filterMap
        (·.fetched_at) := List.mem_filterMap.mpr ⟨m, hm, hts1⟩
    rw [hnil] at hmem
    simp at hmem
  by_cases hg : CredifyApp.freshnessGuard db u
  · have h1 : CredifyApp.updateUserMetrics db u t1 = (db, false) := by
      simp [CredifyApp.updateUserMetrics, hP, hL, hg]
    rw [h1]
    simp [CredifyApp.updateUserMetrics, hP, hL, hg]
  · have h1 : CredifyApp.updateUserMetrics db u t1 =
        (CredifyApp.upsertUserMetrics db u (CredifyApp.aggregateRow db u t1),
          true) := by
      simp [CredifyApp.updateUserMetrics, hP, hL, hg]
    rw [h1]
    have hL1 : CredifyApp.latestMetricsFor
        (CredifyApp.upsertUserMetrics db u (CredifyApp.aggregateRow db u t1))
        u = CredifyApp.latestMetricsFor db u := rfl
    have hg1 : CredifyApp.freshnessGuard
        (CredifyApp.upsertUserMetrics db u (CredifyApp.aggregateRow db u t1))
        u = true := by
      unfold CredifyApp.freshnessGuard
      rw [hL1, lookupUserMetrics_upsert]
      cases hC : (CredifyApp.latestMetricsFor db u).filterMap (·.fetched_at)
        with
      | nil => exact absurd hC hCne
      | cons c cs =>
        have hcle : c ≤ t1 :=
          hCle c (by rw [hC]; exact List.mem_cons_self c cs)
        have hcsle : ∀ x ∈ cs, x ≤ t1 := fun x hx =>
          hCle x (by rw [hC]; exact List.mem_cons_of_mem c hx)
        have hfold : cs.foldl max c ≤ t1 := foldl_max_le t1 cs c hcle hcsle
        simpa [CredifyApp.aggregateRow] using hfold
    simp [CredifyApp.updateUserMetrics, hL1,
      show CredifyApp.projectIdsFor
          (CredifyApp.upsertUserMetrics db u
            (CredifyApp.aggregateRow db u t1)) u =
        CredifyApp.projectIdsFor db u from rfl,
      hP, hL, hg1]

theorem c5_freshness_guard_amended_witness :
    (CredifyApp.updateUserMetrics
      (CredifyApp.updateUserMetrics
        ⟨[("u1", "vid")], [⟨"vid", 10, 1, 1, 0, some 3⟩], []⟩ "u1" 5).1
      "u1" 6).2 = false :=
  c5_freshness_guard_amended
    ⟨[("u1", "vid")], [⟨"vid", 10, 1, 1, 0, some 3⟩], []⟩ "u1" 5 6
    (by decide)
    (fun m hm => by
      have hLM : CredifyApp.latestMetricsFor
          ⟨[("u1", "vid")], [⟨"vid", 10, 1, 1, 0, some 3⟩], []⟩ "u1" =
          [⟨"vid", 10, 1, 1, 0, some 3⟩] := rfl
      rw [hLM, List.mem_singleton] at hm
      subst hm
      exact ⟨3, rfl, by decide⟩)

/-- C7: a candidate whose host ends in the hosting-proxy domain
`share.streamlit.io` normalizes to the fixed canonical production URL; a
loopback host normalizes to `http://localhost` with the candidate's port;
any other (non-allow-listed) host is rejected by the normalizer and
resolution falls back to the canonical production URL. -/
theorem c7_redirect_normalization (p : Auth.ParsedUrl) (host : String)
    (hh : p.hostname = some host) :
    (Auth.pyEndsWith host "share.streamlit.io" = true →
        Auth.normalizeBaseUrl (some p) =
          some Auth.CANONICAL_PRODUCTION_URL) ∧
      (host ∈ Auth.LOCALHOST_HOSTS →
        Auth.normalizeBaseUrl (some p) =
          some ("http://localhost" ++
            match p.port with
            | some pt => ":" ++ toString pt
            | none => "")) ∧
      (host ∉ Auth.LOCALHOST_HOSTS →
        Auth.pyEndsWith host "share.streamlit.io" = false →
          host ∉ Auth.ALLOWED_PRODUCTION_HOSTS →
          Auth.normalizeBaseUrl (some p) = none ∧
            Auth.getProductionBaseUrl [some p] =
              Auth.CANONICAL_PRODUCTION_URL) := by
  have hn : Auth.normalizeBaseUrl (some p) =
      (if Auth.LOCALHOST_HOSTS.contains host then
        some ("http://localhost" ++
          match p.port with
          | some pt => ":" ++ toString pt
          | none => "")
      else if Auth.ALLOWED_PRODUCTION_HOSTS.contains host then
        some Auth.CANONICAL_PRODUCTION_URL
      else if Auth.pyEndsWith host "share.streamlit.io" then
        some Auth.CANONICAL_PRODUCTION_URL
      else none) := by
    simp only [Auth.normalizeBaseUrl, hh]
  refine ⟨?_, ?_, ?_⟩
  · intro hend
    have hloc : Auth.LOCALHOST_HOSTS.contains host = false := by
      rw [Bool.eq_false_iff]
      intro hcon
      have hm := List.elem_iff.mp hcon
      simp only [Auth.LOCALHOST_HOSTS, List.mem_cons, List.mem_singleton,
        List.not_mem_nil, or_false] at hm
      rcases hm with h | h <;> (rw [h] at hend; exact absurd hend (by decide))
    rw [hn, hloc]
    by_cases hall : Auth.ALLOWED_PRODUCTION_HOSTS.contains host = true
    · rw [if_neg (by simp), if_pos hall]
    · have hallf : Auth.ALLOWED_PRODUCTION_HOSTS.contains host = false := by
        simpa using hall
      rw [if_neg (by simp), if_neg hall, if_pos hend]
  · intro hmem
    have hloc : Auth.LOCALHOST_HOSTS.contains host = true :=
      List.elem_iff.mpr hmem
    rw [hn, hloc]
    simp
  · intro hnloc hnend hnall
    have hloc : Auth.LOCALHOST_HOSTS.contains host = false := by
      rw [Bool.eq_false_iff]
      exact fun hcon => hnloc (List.elem_iff.mp hcon)
    have hall : Auth.ALLOWED_PRODUCTION_HOSTS.contains host = false := by
      rw [Bool.eq_false_iff]
      exact fun hcon => hnall (List.elem_iff.mp hcon)
    have hnone : Auth.normalizeBaseUrl (some p) = none := by
      rw [hn, hloc, hall, hnend]
      simp
    refine ⟨hnone, ?_⟩
    simp [Auth.getProductionBaseUrl, hnone]

theorem c7_redirect_normalization_witness :
    Auth.normalizeBaseUrl
        (some ⟨some "evil.example.com", none, "https"⟩) = none ∧
      Auth.getProductionBaseUrl
        [some ⟨some "evil.example.com", none, "https"⟩] =
        Auth.CANONICAL_PRODUCTION_URL :=
  (c7_redirect_normalization ⟨some "evil.example.com", none, "https"⟩
    "evil.example.com" rfl).2.2 (by decide) (by decide) (by decide)

/-- C8: a metrics input with zero views contributes no engagement rate (the
uploader yields an absent value, the aggregate treats an all-zero-view user
as rate 0) and no division by zero is evaluated; for views 1000, likes 40,
comments 10, shares 0 the percentage-based aggregate formula yields
exactly 5. -/
theorem c8_engagement_rate (likes comments shares : Nat) (pid : String)
    (f g : Option Nat) :
    AddToSupabase.engagementRate 0 likes comments = none ∧
      CredifyApp.engagementRates [⟨pid, 0, likes, comments, shares, f⟩] = [] ∧
      CredifyApp.avgEngagementRate [⟨pid, 0, likes, comments, shares, f⟩] = 0 ∧
      CredifyApp.avgEngagementRate [⟨pid, 1000, 40, 10, 0, g⟩] = 5 := by
  refine ⟨rfl, ?_, ?_, ?_⟩
  · simp [CredifyApp.engagementRates]
  · simp [CredifyApp.avgEngagementRate, CredifyApp.engagementRates]
  · norm_num [CredifyApp.avgEngagementRate, CredifyApp.engagementRates,
      List.filterMap_cons]
lemma pyInt_nonneg (q : ℚ) (h : 0 ≤ q) : 0 ≤ Seeder.pyInt q := by
  unfold Seeder.pyInt
  rw [if_pos h]
  exact Int.le_floor.mpr (by exact_mod_cast h)

lemma incViews_nonneg (base d dow : ℕ) (w : Seeder.DayDraws)
    (hw : Seeder.WellDrawn w) : 0 ≤ Seeder.incViews base d dow w := by
  obtain ⟨hdv1, hdv2, hsr1, hsr2, hsm1, hsm2, hdr1, hdr2, hdm1, hdm2,
    hlr1, hlr2, hcr1, hcr2⟩ := hw
  unfold Seeder.incViews
  apply pyInt_nonneg
  have hbase : (0 : ℚ) ≤ (base : ℚ) := by positivity
  have hweekend : (0 : ℚ) ≤ (if 5 ≤ dow then (7 : ℚ) / 10 else 1) := by
    split_ifs <;> norm_num
  have htrend : (0 : ℚ) ≤ 1 + (d : ℚ) * (33 / 100000) := by positivity
  have hdv : (0 : ℚ) ≤ w.dailyVariation := by linarith
  have hspike : (0 : ℚ) ≤ (if w.spikeRoll < 1 / 20 then w.spikeMult else 1) := by
    split_ifs
    · linarith
    · norm_num
  have hdip : (0 : ℚ) ≤
      (if w.dipRoll < 1 / 10 ∧
          (if w.spikeRoll < 1 / 20 then w.spikeMult else 1) = 1 then
        w.dipMult else 1) := by
    split_ifs <;> linarith
  exact mul_nonneg (mul_nonneg (mul_nonneg (mul_nonneg
    (mul_nonneg hbase hweekend) htrend) hdv) hspike) hdip

lemma incLikes_nonneg (incV : ℤ) (w : Seeder.DayDraws) :
    0 ≤ Seeder.incLikes incV w := le_max_left 0 _

lemma incComments_nonneg (incV : ℤ) (w : Seeder.DayDraws) :
    0 ≤ Seeder.incComments incV w := le_max_left 0 _

lemma seedRowsFrom_head_ge (base startDow : ℕ) (draws : ℕ → Seeder.DayDraws)
    (hw : ∀ d, Seeder.WellDrawn (draws d)) :
    ∀ (r d : ℕ) (cum : ℤ × ℤ × ℤ) (row : Seeder.SeedRow),
      (Seeder.seedRowsFrom base startDow draws cum d r).head? = some row →
      cum.1 ≤ row.view_count ∧ cum.2.1 ≤ row.like_count ∧
        cum.2.2 ≤ row.comment_count := by
  intro r d cum row h
  cases r with
  | zero => simp [Seeder.seedRowsFrom] at h
  | succ r' =>
    simp only [Seeder.seedRowsFrom, List.head?_cons, Option.some.injEq] at h
    subst h
    refine ⟨?_, ?_, ?_⟩
    · have := incViews_nonneg base d ((startDow + d) % 7) (draws d) (hw d)
      simp only []
      linarith
    · have := incLikes_nonneg
        (Seeder.incViews base d ((startDow + d) % 7) (draws d)) (draws d)
      simp only []
      linarith
    · have := incComments_nonneg
        (Seeder.incViews base d ((startDow + d) % 7) (draws d)) (draws d)
      simp only []
      linarith

lemma seedRowsFrom_chain (base startDow : ℕ) (draws : ℕ → Seeder.DayDraws)
    (hw : ∀ d, Seeder.WellDrawn (draws d)) :
    ∀ (r d : ℕ) (cum : ℤ × ℤ × ℤ),
      (Seeder.seedRowsFrom base startDow draws cum d r).Chain'
        (fun a b => a.view_count ≤ b.view_count ∧
          a.like_count ≤ b.like_count ∧
          a.comment_count ≤ b.comment_count) := by
  intro r
  induction r with
  | zero => intro d cum; simp [Seeder.seedRowsFrom]
  | succ r' ih =>
    intro d cum
    simp only [Seeder.seedRowsFrom]
    rw [List.chain'_cons']
    constructor
    · intro y hy
      have hge := seedRowsFrom_head_ge base startDow draws hw r' (d + 1) _ y
        (by simpa using hy)
      exact hge
    · exact ih (d + 1) _

/-- C9: every run of the demo-data seeder generates, for each project,
snapshot rows whose cumulative view, like, and comment counters are
monotonically non-decreasing in date order — each daily increment is
non-negative — so differencing consecutive generated snapshots never
yields a negative daily figure. -/
theorem c9_seeder_monotone (pidIdx startDow days : ℕ)
    (draws : ℕ → Seeder.DayDraws) (hw : ∀ d, Seeder.WellDrawn (draws d)) :
    (Seeder.seedRowsForProject (Seeder.baseDailyViews pidIdx) startDow draws
      days).Chain'
      (fun a b => a.view_count ≤ b.view_count ∧
        a.like_count ≤ b.like_count ∧
        a.comment_count ≤ b.comment_count) :=
  seedRowsFrom_chain (Seeder.baseDailyViews pidIdx) startDow draws hw days 0
    (0, 0, 0)

theorem c9_seeder_monotone_witness :
    (Seeder.seedRowsForProject (Seeder.baseDailyViews 0) 0
      (fun _ => ⟨1, 1 / 2, 3, 1 / 2, 1 / 2, 1 / 25, 1 / 100⟩) 3).Chain'
      (fun a b => a.view_count ≤ b.view_count ∧
        a.like_count ≤ b.like_count ∧
        a.comment_count ≤ b.comment_count) :=
  c9_seeder_monotone 0 0 3 _
    (fun _ => by norm_num [Seeder.WellDrawn])
